import Mathlib

/-!
Shallow embedding of `src/main.ts` (`MsGraphBatchProcessor`): the data
model, chunking, response reconciliation, the retry controller and the
top-level batch operation.  External collaborators — the Graph client
(`client.api("/$batch").post`) and the uuid source (`uuid4`) — are
modelled as explicit oracles passed in as functions; machine numbers are
modelled as `Int`, JavaScript `undefined` as `Option`, and the JavaScript
truthiness coercions of `||` are spelled out where the source relies on
them.
-/

namespace MsGraphBatch

/-- HTTP methods admitted by `BatchRequest.method` in the source. -/
inductive Method where
  | GET
  | POST
  | PATCH
  | DELETE
deriving DecidableEq, Repr

/-- Fields returned by the caller-supplied request builder: a
`BatchRequest` without its `id` field (`Omit<BatchRequest<any>, "id">`
in the source).  `P` is the payload type. -/
structure RequestFields (P : Type) where
  method : Method
  url : String
  body : Option P
  headers : Option (List (String × String))
deriving DecidableEq, Repr

/-- The `BatchRequest<T>` interface of the source: a request descriptor
with its correlation `id`. -/
structure BatchRequest (P : Type) where
  id : String
  method : Method
  url : String
  body : Option P
  headers : Option (List (String × String))
deriving DecidableEq, Repr

/-- Error information optionally embedded in a sub-response body
(`{ error?: { message: string; code: string } }` in the source). -/
structure ErrorInfo where
  message : String
  code : String
deriving DecidableEq, Repr

/-- A sub-response body: the caller-visible value of type `R` together
with the optionally embedded error object (the source types it as
`T & { error?: { message; code } }`). -/
structure ResponseBody (R : Type) where
  value : R
  error : Option ErrorInfo
deriving DecidableEq, Repr

/-- The `BatchResponse<T>` interface of the source.  `body` is `Option`
because the field is optional (`body?:`); a present body is an object
and hence truthy in the `response.body` test of the source. -/
structure BatchResponse (R : Type) where
  id : String
  status : Int
  body : Option (ResponseBody R)
deriving DecidableEq, Repr

/-- One entry of `BatchResult.successful`.  The `request` field is
`Option T` because the source reads `originalItems[index]`, which is
`undefined` (`none`) when `index` is out of range of the item list. -/
structure SuccessEntry (T R : Type) where
  request : Option T
  response : ResponseBody R
deriving DecidableEq, Repr

/-- One entry of `BatchResult.failed`; `request` is `Option T` for the
same out-of-range reason as in `SuccessEntry`. -/
structure FailureEntry (T : Type) where
  request : Option T
  error : String
deriving DecidableEq, Repr

/-- The `BatchResult<T, R>` interface of the source. -/
structure BatchResult (T R : Type) where
  successful : List (SuccessEntry T R)
  failed : List (FailureEntry T)
deriving DecidableEq, Repr

/-- The classification the reconciler produces for one position: what the
source pushes onto `results.successful` or `results.failed`. -/
inductive Outcome (T R : Type) where
  | success : Option T → ResponseBody R → Outcome T R
  | failure : Option T → String → Outcome T R
deriving DecidableEq, Repr

/-- The slice of a `GraphError` the source reads in its catch branch:
`graphError["statusCode"]` (possibly `undefined`), the
`headers?.get("Retry-After")` lookup (`none` when either the headers
object or the header is absent), and `str`, the string the template
literal coercion of the error object yields in
`String(graphError)`-position. -/
structure GraphError where
  statusCode : Option Int
  retryAfter : Option String
  str : String
deriving DecidableEq, Repr

/-- Result of one invocation of the batch executor oracle: either the
decoded `response.responses` list or a thrown `GraphError`. -/
inductive ExecOutcome (R : Type) where
  | ok : List (BatchResponse R) → ExecOutcome R
  | err : GraphError → ExecOutcome R
deriving DecidableEq, Repr

/-- The five configuration fields of the processor options object. -/
structure Options where
  batchSize : Int
  concurrency : Int
  maxRetries : Int
  retryDelay : Int
  queueInterval : Int
deriving DecidableEq, Repr

/-- Evaluation of the constructor with an optional options argument.
The source declares the parameter as
`options = { ..., retryDelay: options.retryDelay ?? 0 / 1000 ?? 30, ... }`:
the default initializer reads `options` itself while that very parameter
is still uninitialized.  Calling the constructor without an options
argument therefore throws — a ReferenceError under native ES2015+
default parameters (temporal dead zone), a TypeError (reading
`retryDelay` of `undefined`) under ES5 downleveling — and no processor
is constructed.  When an options argument is supplied the default
expression is never evaluated and the constructor stores a copy of the
given object. -/
def constructProcessorOptions : Option Options → Except String Options
  | some o => Except.ok o
  | none => Except.error "ReferenceError: options is accessed before its initialization"

/-- JavaScript `Array.prototype.slice` index normalization: negative
indices count from the end, and indices are clamped to `[0, len]`. -/
def jsSliceIndex (len : Nat) (i : Int) : Nat :=
  if i < 0 then (max 0 ((len : Int) + i)).toNat else min i.toNat len

/-- JavaScript `array.slice(i, j)`: the elements of positions
`[jsSliceIndex len i, jsSliceIndex len j)`. -/
def jsSlice {T : Type} (l : List T) (i j : Int) : List T :=
  (l.take (jsSliceIndex l.length j)).drop (jsSliceIndex l.length i)

/-- The loop of `chunkArray` with an explicit fuel bound:
`for (let i = 0; i < array.length; i += size) chunks.push(array.slice(i, i + size))`.
Each loop iteration consumes one unit of fuel; `none` means the loop did
not finish within the given fuel.  With `size <= 0` and a nonempty array
the loop condition `i < array.length` stays true forever, so every
finite fuel yields `none`: the source loop never terminates. -/
def chunkArrayFuel {T : Type} (array : List T) (size : Int) :
    Nat → Int → List (List T) → Option (List (List T))
  | fuel, i, chunks =>
    if i < (array.length : Int) then
      match fuel with
      | 0 => none
      | fuel + 1 => chunkArrayFuel array size fuel (i + size) (chunks ++ [jsSlice array i (i + size)])
    else some chunks

/-- `chunkArray` of the source, run with fuel `array.length`, which is
enough for every positive `size` (the loop then makes at most
`array.length` iterations); `none` therefore occurs exactly when the
source loop fails to terminate. -/
def chunkArray {T : Type} (array : List T) (size : Int) : Option (List (List T)) :=
  chunkArrayFuel array size array.length 0 []

/-- Structural description of the chunking loop for positive sizes:
repeatedly take `size` elements.  Proved below to agree with
`chunkArray` whenever `0 < size`. -/
def chunkArrayPos {T : Type} : List T → (size : Nat) → 0 < size → List (List T)
  | [], _, _ => []
  | x :: xs, size, h =>
    (x :: xs).take size :: chunkArrayPos ((x :: xs).drop size) size h
termination_by l _ _ => l.length
decreasing_by
  simp only [List.length_drop, List.length_cons]
  omega

/-- Synthesized failure message of the reconciler:
`Unknown error (Status: $\{response.status})` in the source. -/
def synthesizedError (status : Int) : String :=
  "Unknown error (Status: " ++ toString status ++ ")"

/-- JavaScript `s || d` on an optional string: `undefined` and the empty
string are falsy and select `d`; any other string is returned. -/
def jsStringOr (s : Option String) (d : String) : String :=
  match s with
  | some v => if v = "" then d else v
  | none => d

/-- Classification of one sub-response against the (possibly absent)
item at its position, following the body of the `forEach` of
`processBatchResponse`: a `2xx` status with a (truthy, hence present)
body is a success carrying the whole body; anything else is a failure
whose message is `body?.error?.message || synthesizedError status`. -/
def reconcileOne {T R : Type} (req : Option T) (r : BatchResponse R) : Outcome T R :=
  match r.body with
  | some b =>
    if 200 ≤ r.status ∧ r.status < 300 then Outcome.success req b
    else Outcome.failure req (jsStringOr (b.error.map ErrorInfo.message) (synthesizedError r.status))
  | none => Outcome.failure req (synthesizedError r.status)

/-- The indexed `forEach` of `processBatchResponse`: one `Outcome` per
element of `responses`, in order, each looking up `originalItems[index]`
(`none` past the end of the item list). -/
def reconcileOutcomes {T R : Type} (originalItems : List T) :
    List (BatchResponse R) → Nat → List (Outcome T R)
  | [], _ => []
  | r :: rest, index =>
    reconcileOne (originalItems.get? index) r :: reconcileOutcomes originalItems rest (index + 1)

/-- Projection of an `Outcome` to the entry pushed onto `successful`. -/
def succOf {T R : Type} : Outcome T R → Option (SuccessEntry T R)
  | Outcome.success t b => some { request := t, response := b }
  | Outcome.failure _ _ => none

/-- Projection of an `Outcome` to the entry pushed onto `failed`. -/
def failOf {T R : Type} : Outcome T R → Option (FailureEntry T)
  | Outcome.success _ _ => none
  | Outcome.failure t e => some { request := t, error := e }

/-- The item reference an `Outcome` carries. -/
def requestOf {T R : Type} : Outcome T R → Option T
  | Outcome.success t _ => t
  | Outcome.failure t _ => t

/-- `processBatchResponse` of the source: iterate over the responses
with their index and push each position onto `successful` or `failed`;
the two lists keep the response order of their members. -/
def processBatchResponse {T R : Type} (responses : List (BatchResponse R))
    (originalItems : List T) : BatchResult T R :=
  { successful := (reconcileOutcomes originalItems responses 0).filterMap succOf
    failed := (reconcileOutcomes originalItems responses 0).filterMap failOf }

/-- Parse of decimal digit lists, `none` when a non-digit occurs. -/
def decDigitsAux : List Char → Nat → Option Nat
  | [], acc => some acc
  | c :: cs, acc => if c.isDigit then decDigitsAux cs (acc * 10 + (c.toNat - 48)) else none

/-- Parse of a nonempty all-digit character list. -/
def decDigits : List Char → Option Nat
  | [] => none
  | c :: cs => decDigitsAux (c :: cs) 0

/-- Surrounding whitespace removal on a character list (the trim the
JavaScript `Number` conversion performs first). -/
def trimChars (cs : List Char) : List Char :=
  ((cs.dropWhile Char.isWhitespace).reverse.dropWhile Char.isWhitespace).reverse

/-- JavaScript `Number(s)` on the string fragment this program meets:
surrounding whitespace is trimmed, the empty string converts to `0`, an
optionally signed decimal integer numeral converts to its value, and
anything else is `NaN`, modelled as `none`.  (Fractional, exponent and
hex numerals do not occur as Retry-After values and are out of scope.) -/
def jsNumberOfString (s : String) : Option Int :=
  match trimChars s.toList with
  | [] => some 0
  | c :: cs =>
    if c = '-' then (decDigits cs).map (fun n => -(n : Int))
    else if c = '+' then (decDigits cs).map (fun n => (n : Int))
    else (decDigits (c :: cs)).map (fun n => (n : Int))

/-- The `retryAfter` computation of the source:
`Number(Number(headers?.get("Retry-After")) || retryDelay)`.
`Number(undefined)` is `NaN`; `NaN` and `0` are falsy, so `||` falls
back to `retryDelay` for a missing header, a non-numeric header and a
header parsing to `0`; the outer `Number` is the identity on numbers. -/
def computeRetryAfter (header : Option String) (retryDelay : Int) : Int :=
  match (match header with
         | some s => jsNumberOfString s
         | none => none) with
  | some v => if v = 0 then retryDelay else v
  | none => retryDelay

/-- Milliseconds actually slept by
`setTimeout(resolve, retryAfter * 1000)`: the runtime clamps negative
(and `NaN`) delays, so the suspension is never negative. -/
def effectiveSleepMs (retryAfterSeconds : Int) : Int :=
  max 0 (retryAfterSeconds * 1000)

/-- The `items.map((item) => ({ id: uuid4(), ...requestBuilder(item) }))`
of the source: one fresh uuid per item, drawn in order from the uuid
oracle starting at counter `ctr`. -/
def mkBatchRequests {T P : Type} (uuidGen : Nat → String)
    (requestBuilder : T → RequestFields P) : List T → Nat → List (BatchRequest P)
  | [], _ => []
  | it :: rest, ctr =>
    { id := uuidGen ctr
      method := (requestBuilder it).method
      url := (requestBuilder it).url
      body := (requestBuilder it).body
      headers := (requestBuilder it).headers } :: mkBatchRequests uuidGen requestBuilder rest (ctr + 1)

/-- Observable record of one run of `processSingleBatchWithRetry`: the
returned `BatchResult`, the request lists submitted to the executor in
order (one per attempt), the milliseconds slept before each retry, and
the final values of the uuid and executor-call counters. -/
structure RunTrace (T P R : Type) where
  result : BatchResult T R
  sent : List (List (BatchRequest P))
  sleepsMs : List Int
  uuidCtr : Nat
  callCtr : Nat
deriving DecidableEq, Repr

/-- `processSingleBatchWithRetry` of the source.  `exec n rs` is the
outcome of the `n`-th call of `client.api("/$batch").post` in the whole
run (the executor oracle), `uuidGen` the uuid oracle, `attempt` the
source's attempt counter (defaulted to `1` by callers).  The request
list is rebuilt — with fresh uuids — at the top of every invocation; on
success the responses are reconciled against the items; on a thrown
error with `statusCode === 429` and `attempt < maxRetries` the run
sleeps `retryAfter * 1000` milliseconds and recurses with `attempt + 1`;
otherwise every item is marked failed with a message embedding the
error. -/
def processSingleBatchWithRetry {T P R : Type} (cfg : Options)
    (exec : Nat → List (BatchRequest P) → ExecOutcome R) (uuidGen : Nat → String)
    (requestBuilder : T → RequestFields P) (items : List T)
    (attempt : Int) (uuidCtr callCtr : Nat) : RunTrace T P R :=
  let batchRequests := mkBatchRequests uuidGen requestBuilder items uuidCtr
  match exec callCtr batchRequests with
  | ExecOutcome.ok responses =>
    { result := processBatchResponse responses items
      sent := [batchRequests]
      sleepsMs := []
      uuidCtr := uuidCtr + items.length
      callCtr := callCtr + 1 }
  | ExecOutcome.err g =>
    if h : g.statusCode = some 429 ∧ attempt < cfg.maxRetries then
      let retryAfter := computeRetryAfter g.retryAfter cfg.retryDelay
      let rest := processSingleBatchWithRetry cfg exec uuidGen requestBuilder items
        (attempt + 1) (uuidCtr + items.length) (callCtr + 1)
      { result := rest.result
        sent := batchRequests :: rest.sent
        sleepsMs := effectiveSleepMs retryAfter :: rest.sleepsMs
        uuidCtr := rest.uuidCtr
        callCtr := rest.callCtr }
    else
      { result :=
          { successful := []
            failed := items.map fun it =>
              { request := some it, error := "Batch request failed: " ++ g.str } }
        sent := [batchRequests]
        sleepsMs := []
        uuidCtr := uuidCtr + items.length
        callCtr := callCtr + 1 }
termination_by (cfg.maxRetries - attempt).toNat
decreasing_by
  omega

/-- The per-group traces of the `for (const batch of batches)` loop of
`processBatch`, in chunk order, threading the uuid and call counters
from one group to the next.  The loop body is `await queue.add(...)`:
`queue.add` resolves only when its task has completed, so each group —
retries included — reaches its terminal state before the next group is
submitted, and the loop is sequential in chunk order. -/
def groupTraces {T P R : Type} (cfg : Options)
    (exec : Nat → List (BatchRequest P) → ExecOutcome R) (uuidGen : Nat → String)
    (requestBuilder : T → RequestFields P) :
    List (List T) → Nat → Nat → List (RunTrace T P R)
  | [], _, _ => []
  | b :: bs, u, c =>
    let tr := processSingleBatchWithRetry cfg exec uuidGen requestBuilder b 1 u c
    tr :: groupTraces cfg exec uuidGen requestBuilder bs tr.uuidCtr tr.callCtr

/-- Accumulation of the per-group results exactly as the loop pushes
them: each completed group appends its `successful` and `failed` lists
(`results.successful.push(...batchResult.successful)`) before the next
group runs. -/
def processBatchChunks {T P R : Type} (cfg : Options)
    (exec : Nat → List (BatchRequest P) → ExecOutcome R) (uuidGen : Nat → String)
    (requestBuilder : T → RequestFields P) :
    List (List T) → Nat → Nat → BatchResult T R
  | [], _, _ => { successful := [], failed := [] }
  | b :: bs, u, c =>
    let tr := processSingleBatchWithRetry cfg exec uuidGen requestBuilder b 1 u c
    let rest := processBatchChunks cfg exec uuidGen requestBuilder bs tr.uuidCtr tr.callCtr
    { successful := tr.result.successful ++ rest.successful
      failed := tr.result.failed ++ rest.failed }

/-- The builder-determined part of a request descriptor: a
`BatchRequest` with its correlation `id` removed again. -/
def stripId {P : Type} (r : BatchRequest P) : RequestFields P :=
  { method := r.method, url := r.url, body := r.body, headers := r.headers }

/-- `processBatch` of the source: chunk the requests with the configured
batch size, run every chunk to completion in order (see `groupTraces`),
and return the accumulated result.  `none` models the case in which
`chunkArray` never terminates (non-positive `batchSize` on a nonempty
input), in which case `processBatch` never returns. -/
def processBatch {T P R : Type} (cfg : Options)
    (exec : Nat → List (BatchRequest P) → ExecOutcome R) (uuidGen : Nat → String)
    (requestBuilder : T → RequestFields P) (requests : List T) : Option (BatchResult T R) :=
  (chunkArray requests cfg.batchSize).map fun batches =>
    processBatchChunks cfg exec uuidGen requestBuilder batches 0 0

/-- Concrete uuid oracle for worked examples: the `n`-th uuid drawn is
the decimal numeral of `n` (distinct uuids for distinct draws). -/
def fixtureUuid (n : Nat) : String := toString n

/-- Concrete request builder for worked examples. -/
def fixtureBuilder (n : Nat) : RequestFields Unit :=
  { method := Method.GET, url := "/users/" ++ toString n, body := none, headers := none }

/-- Executor stub that throws a rate-limit error without a retry hint on
every invocation. -/
def fixtureExec429 : Nat → List (BatchRequest Unit) → ExecOutcome Unit :=
  fun _ _ => ExecOutcome.err { statusCode := some 429, retryAfter := none, str := "GraphError: 429" }

/-- Executor stub that throws a non-rate-limit error on every
invocation. -/
def fixtureExec500 : Nat → List (BatchRequest Unit) → ExecOutcome Unit :=
  fun _ _ => ExecOutcome.err { statusCode := some 500, retryAfter := none, str := "GraphError: 500" }

/-- Executor stub that answers every request of the submitted group with
status `200` and a body, in order. -/
def fixtureExecOk : Nat → List (BatchRequest Unit) → ExecOutcome Unit :=
  fun _ rs => ExecOutcome.ok (rs.map fun r =>
    { id := r.id, status := 200, body := some { value := (), error := none } })

/-- Concrete configuration with attempt ceiling 1. -/
def fixtureCfg1 : Options :=
  { batchSize := 20, concurrency := 2, maxRetries := 1, retryDelay := 1000, queueInterval := 1000 }

/-- Concrete configuration with attempt ceiling 2. -/
def fixtureCfg2 : Options :=
  { batchSize := 20, concurrency := 2, maxRetries := 2, retryDelay := 1000, queueInterval := 1000 }

/-- Concrete configuration with batch size 2. -/
def fixtureCfgSize2 : Options :=
  { batchSize := 2, concurrency := 2, maxRetries := 3, retryDelay := 1000, queueInterval := 1000 }

/-!
Chunking lemmas.
-/

theorem aux_chunkFuel_none {T : Type} (array : List T) (size : Int)
    (hsize : size ≤ 0) (hne : array ≠ []) :
    ∀ (fuel : Nat) (i : Int), i ≤ 0 → ∀ acc, chunkArrayFuel array size fuel i acc = none := by
  have hlen : 0 < array.length := List.length_pos.mpr hne
  have hlen2 : (0 : Int) < (array.length : Int) := by exact_mod_cast hlen
  intro fuel
  induction fuel with
  | zero =>
    intro i hi acc
    rw [chunkArrayFuel]
    rw [if_pos (by omega)]
  | succ n ih =>
    intro i hi acc
    rw [chunkArrayFuel]
    rw [if_pos (by omega)]
    exact ih (i + size) (by omega) _

theorem aux_jsSlice_nat {T : Type} (l : List T) (k s : Nat) :
    jsSlice l (k : Int) ((k : Int) + (s : Int)) = (l.drop k).take s := by
  unfold jsSlice jsSliceIndex
  rw [if_neg (by omega), if_neg (by omega)]
  have h3 : ((k : Int) + (s : Int)).toNat = k + s := by omega
  have h4 : ((k : Int)).toNat = k := by omega
  rw [h3, h4]
  by_cases hk : k ≤ l.length
  · rw [min_eq_left hk, List.drop_take]
    rw [List.take_eq_take]
    simp only [List.length_drop]
    omega
  · rw [min_eq_right (by omega)]
    rw [List.drop_eq_nil_of_le (by simp), List.drop_eq_nil_of_le (by omega)]
    simp

theorem aux_chunkPos_nil {T : Type} (s : Nat) (h : 0 < s) :
    chunkArrayPos ([] : List T) s h = [] := by
  rw [chunkArrayPos]

theorem aux_chunkFuel_pos {T : Type} (array : List T) (size : Int) (hs : 0 < size) :
    ∀ (fuel : Nat) (k : Nat) (acc : List (List T)),
      array.length - k ≤ fuel * size.toNat →
      chunkArrayFuel array size fuel (k : Int) acc
        = some (acc ++ chunkArrayPos (array.drop k) size.toNat (by omega)) := by
  intro fuel
  induction fuel with
  | zero =>
    intro k acc hfuel
    rw [chunkArrayFuel, if_neg (by omega)]
    rw [List.drop_eq_nil_of_le (by omega), aux_chunkPos_nil]
    simp
  | succ fuel ih =>
    intro k acc hfuel
    by_cases hk : k < array.length
    · rw [chunkArrayFuel, if_pos (by omega)]
      have hjs : jsSlice array (k : Int) ((k : Int) + size) = (array.drop k).take size.toNat := by
        have hsz : (k : Int) + size = (k : Int) + ((size.toNat : Nat) : Int) := by omega
        rw [hsz, aux_jsSlice_nat]
      have hcast : (k : Int) + size = ((k + size.toNat : Nat) : Int) := by
        push_cast
        omega
      rw [hjs, hcast]
      rw [Nat.succ_mul] at hfuel
      rw [ih (k + size.toNat) _ (by omega)]
      obtain ⟨x, xs, hdk⟩ : ∃ x xs, array.drop k = x :: xs := by
        cases hdrop : array.drop k with
        | nil =>
          exfalso
          have := congrArg List.length hdrop
          simp [List.length_drop] at this
          omega
        | cons x xs => exact ⟨x, xs, rfl⟩
      rw [hdk, chunkArrayPos]
      have hdd : (x :: xs).drop size.toNat = array.drop (k + size.toNat) := by
        rw [← hdk, List.drop_drop]
      rw [hdd]
      simp
    · rw [chunkArrayFuel, if_neg (by omega)]
      rw [List.drop_eq_nil_of_le (by omega), aux_chunkPos_nil]
      simp

theorem aux_chunkArray_pos {T : Type} (array : List T) (size : Int) (hs : 0 < size) :
    chunkArray array size = some (chunkArrayPos array size.toNat (by omega)) := by
  have hb : array.length - 0 ≤ array.length * size.toNat := by
    have h1 : 1 ≤ size.toNat := by omega
    calc array.length - 0 = array.length * 1 := by omega
    _ ≤ array.length * size.toNat := Nat.mul_le_mul_left _ h1
  have h := aux_chunkFuel_pos array size hs array.length 0 [] hb
  unfold chunkArray
  simpa using h

theorem aux_chunkPos_flatten {T : Type} (s : Nat) (h : 0 < s) :
    ∀ (n : Nat) (l : List T), l.length ≤ n → (chunkArrayPos l s h).flatten = l := by
  intro n
  induction n with
  | zero =>
    intro l hl
    have : l = [] := List.eq_nil_of_length_eq_zero (by omega)
    subst this
    rw [aux_chunkPos_nil]
    rfl
  | succ n ih =>
    intro l hl
    cases l with
    | nil =>
      rw [aux_chunkPos_nil]
      rfl
    | cons x xs =>
      rw [chunkArrayPos]
      simp only [List.flatten_cons]
      rw [ih _ (by
        simp only [List.length_cons] at hl
        simp only [List.length_drop, List.length_cons]
        omega)]
      exact List.take_append_drop s (x :: xs)

theorem aux_chunkPos_mem {T : Type} (s : Nat) (h : 0 < s) :
    ∀ (n : Nat) (l : List T), l.length ≤ n →
      ∀ c ∈ chunkArrayPos l s h, c ≠ [] ∧ c.length ≤ s := by
  intro n
  induction n with
  | zero =>
    intro l hl c hc
    have : l = [] := List.eq_nil_of_length_eq_zero (by omega)
    subst this
    rw [aux_chunkPos_nil] at hc
    cases hc
  | succ n ih =>
    intro l hl c hc
    cases l with
    | nil =>
      rw [aux_chunkPos_nil] at hc
      cases hc
    | cons x xs =>
      rw [chunkArrayPos] at hc
      rcases List.mem_cons.mp hc with hc | hc
      · subst hc
        constructor
        · cases s with
          | zero => omega
          | succ m => simp [List.take_cons]
        · simp only [List.length_take, List.length_cons]
          omega
      · exact ih _ (by
          simp only [List.length_cons] at hl
          simp only [List.length_drop, List.length_cons]
          omega) c hc

theorem aux_chunkPos_sizes {T : Type} (s : Nat) (h : 0 < s) :
    ∀ (n : Nat) (l : List T), l.length ≤ n →
      ∀ (j : Nat) (c : List T), (chunkArrayPos l s h).get? j = some c →
        j + 1 < (chunkArrayPos l s h).length → c.length = s := by
  intro n
  induction n with
  | zero =>
    intro l hl j c hget h2
    have : l = [] := List.eq_nil_of_length_eq_zero (by omega)
    subst this
    rw [aux_chunkPos_nil] at hget
    simp at hget
  | succ n ih =>
    intro l hl j c hget h2
    cases l with
    | nil =>
      rw [aux_chunkPos_nil] at hget
      simp at hget
    | cons x xs =>
      rw [chunkArrayPos] at hget h2
      cases j with
      | zero =>
        simp only [List.get?] at hget
        have hc : c = (x :: xs).take s := by
          have := hget
          injection this with hinj
          exact hinj.symm
        have hrest : chunkArrayPos ((x :: xs).drop s) s h ≠ [] := by
          intro hnil
          rw [hnil] at h2
          simp at h2
        have hdrop : (x :: xs).drop s ≠ [] := by
          intro hnil
          rw [hnil, aux_chunkPos_nil] at hrest
          exact hrest rfl
        have hlt : s < (x :: xs).length := by
          by_contra hle
          exact hdrop (List.drop_eq_nil_of_le (by omega))
        rw [hc]
        simp only [List.length_take]
        omega
      | succ j =>
        simp only [List.get?] at hget
        simp only [List.length_cons] at h2
        exact ih _ (by
          simp only [List.length_cons] at hl
          simp only [List.length_drop, List.length_cons]
          omega) j c hget (by omega)

/-- C9 (amended): the chunking operation signals no configuration error.
For `size <= 0` and a nonempty array the source loop never terminates
(no fuel suffices, so `processBatch` never returns); for `size <= 0` and
an empty array the loop exits at once with no chunks; for `0 < size` it
returns contiguous groups of exactly `size` items — the last holding the
remainder — preserving order. -/
theorem chunking_size_guard {T : Type} (array : List T) (size : Int) :
    (size ≤ 0 → array ≠ [] → ∀ (fuel : Nat) (acc : List (List T)),
        chunkArrayFuel array size fuel 0 acc = none) ∧
    (size ≤ 0 → chunkArray ([] : List T) size = some []) ∧
    (0 < size → ∃ cs, chunkArray array size = some cs ∧ cs.flatten = array ∧
        (∀ c ∈ cs, c ≠ [] ∧ c.length ≤ size.toNat) ∧
        (∀ (j : Nat) (c : List T), cs.get? j = some c → j + 1 < cs.length →
            c.length = size.toNat)) := by
  refine ⟨fun hs hne fuel acc => aux_chunkFuel_none array size hs hne fuel 0 le_rfl acc,
    fun hs => ?_, fun hs => ?_⟩
  · unfold chunkArray
    rw [chunkArrayFuel.eq_def]
    simp
  · refine ⟨chunkArrayPos array size.toNat (by omega), aux_chunkArray_pos array size hs,
      aux_chunkPos_flatten size.toNat (by omega) array.length array le_rfl,
      fun c hc => aux_chunkPos_mem size.toNat (by omega) array.length array le_rfl c hc,
      fun j c hget h2 => aux_chunkPos_sizes size.toNat (by omega) array.length array le_rfl j c hget h2⟩

/-- C9 counterexample: with batch size `0` and the one-item input `[0]`
the chunking loop produces no result at all (the `none` of the fuel
model; `chunking_size_guard` shows no finite fuel suffices) — no
configuration error is signalled to the caller. -/
theorem chunking_size_guard_counterexample :
    chunkArray ([0] : List Nat) 0 = none := by decide

/-- Witness for `chunking_size_guard` at size `0`, array `[0]`, fuel `5`. -/
theorem chunking_size_guard_witness :
    chunkArrayFuel ([0] : List Nat) 0 5 0 [] = none :=
  (chunking_size_guard [0] 0).1 (by decide) (by decide) 5 []

/-!
Reconciliation lemmas.
-/

theorem aux_reconcile_length {T R : Type} (items : List T) :
    ∀ (responses : List (BatchResponse R)) (index : Nat),
      (reconcileOutcomes items responses index).length = responses.length := by
  intro responses
  induction responses with
  | nil => intro index; rfl
  | cons r rest ih =>
    intro index
    simp only [reconcileOutcomes, List.length_cons, ih]

theorem aux_requestOf_reconcileOne {T R : Type} (req : Option T) (r : BatchResponse R) :
    requestOf (reconcileOne req r) = req := by
  cases hb : r.body with
  | none => simp [reconcileOne, hb, requestOf]
  | some b =>
    by_cases hst : 200 ≤ r.status ∧ r.status < 300
    · simp [reconcileOne, hb, hst, requestOf]
    · simp [reconcileOne, hb, hst, requestOf]

theorem aux_reconcile_get? {T R : Type} (items : List T) :
    ∀ (responses : List (BatchResponse R)) (index j : Nat) (r : BatchResponse R),
      responses.get? j = some r →
      (reconcileOutcomes items responses index).get? j
        = some (reconcileOne (items.get? (index + j)) r) := by
  intro responses
  induction responses with
  | nil =>
    intro index j r hget
    simp at hget
  | cons q rest ih =>
    intro index j r hget
    cases j with
    | zero =>
      simp only [List.get?] at hget
      injection hget with hinj
      subst hinj
      rfl
    | succ j =>
      simp only [List.get?] at hget
      simp only [reconcileOutcomes, List.get?]
      have harith : index + (j + 1) = index + 1 + j := by omega
      rw [harith]
      exact ih (index + 1) j r hget

theorem aux_partition_perm {T R : Type} (outs : List (Outcome T R)) :
    ((outs.filterMap succOf).map SuccessEntry.request
        ++ (outs.filterMap failOf).map FailureEntry.request).Perm (outs.map requestOf) := by
  induction outs with
  | nil => rfl
  | cons o rest ih =>
    cases o with
    | success t b =>
      simp only [List.filterMap_cons, succOf, failOf, List.map_cons, List.cons_append,
        requestOf]
      exact ih.cons t
    | failure t e =>
      simp only [List.filterMap_cons, succOf, failOf, List.map_cons, requestOf]
      exact (List.perm_middle).trans (ih.cons t)

theorem aux_reconcile_map_requestOf {T R : Type} (items : List T) :
    ∀ (responses : List (BatchResponse R)) (index : Nat),
      index + responses.length = items.length →
      (reconcileOutcomes items responses index).map requestOf = (items.drop index).map some := by
  intro responses
  induction responses with
  | nil =>
    intro index hlen
    rw [List.drop_eq_nil_of_le (by simp at hlen; omega)]
    rfl
  | cons r rest ih =>
    intro index hlen
    simp only [List.length_cons] at hlen
    have hidx : index < items.length := by omega
    simp only [reconcileOutcomes, List.map_cons, aux_requestOf_reconcileOne]
    rw [ih (index + 1) (by omega)]
    rw [List.drop_eq_getElem_cons hidx, List.map_cons]
    rw [List.get?_eq_get hidx]
    rfl

theorem aux_pbr_perm {T R : Type} (responses : List (BatchResponse R)) (items : List T)
    (hlen : responses.length = items.length) :
    ((processBatchResponse responses items).successful.map SuccessEntry.request
        ++ (processBatchResponse responses items).failed.map FailureEntry.request).Perm
      (items.map some) := by
  unfold processBatchResponse
  refine (aux_partition_perm _).trans ?_
  rw [aux_reconcile_map_requestOf items responses 0 (by omega)]
  rw [List.drop_zero]

theorem aux_pbr_count {T R : Type} (responses : List (BatchResponse R)) (items : List T) :
    (processBatchResponse responses items).successful.length
      + (processBatchResponse responses items).failed.length = responses.length := by
  have h := (aux_partition_perm (reconcileOutcomes items responses 0)).length_eq
  simp only [List.length_append, List.length_map, aux_reconcile_length] at h
  exact h


/-- C5 (amended): with equally long response and item lists, the
reconciler yields exactly one outcome per position, never raising: the
two result lists partition the per-position outcomes, position `j` is
classified from `responses[j]` against `originalItems[j]`, a `2xx`
status with a present body yields `Success(originalItems[j], body)`, and
anything else yields `Failure(originalItems[j], message)` where
`message` is the body's embedded error message when that message is
present and nonempty, and otherwise the synthesized string carrying the
status code (the source's `||` treats an empty embedded message as
absent). -/
theorem reconcile_per_position {T R : Type} (responses : List (BatchResponse R)) (items : List T)
    (hlen : responses.length = items.length) :
    ((processBatchResponse responses items).successful.length
        + (processBatchResponse responses items).failed.length = items.length) ∧
    (∀ (j : Nat) (r : BatchResponse R), responses.get? j = some r →
        (reconcileOutcomes items responses 0).get? j = some (reconcileOne (items.get? j) r)
          ∧ (items.get? j).isSome) ∧
    ((processBatchResponse responses items).successful
        = (reconcileOutcomes items responses 0).filterMap succOf) ∧
    ((processBatchResponse responses items).failed
        = (reconcileOutcomes items responses 0).filterMap failOf) ∧
    (∀ (req : Option T) (r : BatchResponse R) (b : ResponseBody R), r.body = some b →
        200 ≤ r.status → r.status < 300 → reconcileOne req r = Outcome.success req b) ∧
    (∀ (req : Option T) (r : BatchResponse R) (b : ResponseBody R) (e : ErrorInfo),
        r.body = some b → ¬(200 ≤ r.status ∧ r.status < 300) → b.error = some e →
        e.message ≠ "" → reconcileOne req r = Outcome.failure req e.message) ∧
    (∀ (req : Option T) (r : BatchResponse R) (b : ResponseBody R),
        r.body = some b → ¬(200 ≤ r.status ∧ r.status < 300) →
        (b.error = none ∨ b.error.map ErrorInfo.message = some "") →
        reconcileOne req r = Outcome.failure req (synthesizedError r.status)) ∧
    (∀ (req : Option T) (r : BatchResponse R), r.body = none →
        reconcileOne req r = Outcome.failure req (synthesizedError r.status)) := by
  refine ⟨by rw [aux_pbr_count]; exact hlen, fun j r hget => ?_, rfl, rfl,
    fun req r b hb h1 h2 => ?_, fun req r b e hb hst he hne => ?_,
    fun req r b hb hst he => ?_, fun req r hb => ?_⟩
  · have hj : j < responses.length := by
      by_contra hge
      rw [List.get?_eq_none.mpr (by omega)] at hget
      cases hget
    refine ⟨?_, ?_⟩
    · have := aux_reconcile_get? items responses 0 j r hget
      simpa using this
    · rw [List.get?_eq_get (by omega)]
      rfl
  · simp [reconcileOne, hb, h1, h2]
  · simp [reconcileOne, hb, if_neg hst, he, jsStringOr, hne]
  · rcases he with he | he
    · simp [reconcileOne, hb, if_neg hst, he, jsStringOr]
    · cases herr : b.error with
      | none => rw [herr] at he; cases he
      | some e =>
        rw [herr] at he
        have hmsg : e.message = "" := by
          simpa using he
        simp [reconcileOne, hb, if_neg hst, herr, jsStringOr, hmsg]
  · simp [reconcileOne, hb]

/-- C5 counterexample: a sub-response with status `404` whose body
carries a present but empty embedded error message.  The claim says the
failure message is the embedded message (present, `""`); the code's
`body?.error?.message || ...` treats the empty string as falsy and emits
the synthesized status string instead. -/
theorem reconcile_per_position_counterexample :
    processBatchResponse
        [{ id := "1", status := 404,
           body := some { value := (), error := some { message := "", code := "itemNotFound" } } }]
        ([7] : List Nat)
      = { successful := [],
          failed := [{ request := some 7, error := "Unknown error (Status: 404)" }] }
      ∧ ("Unknown error (Status: 404)" : String) ≠ "" := by
  exact ⟨rfl, by decide⟩

/-- Witness for `reconcile_per_position` on a one-element response and
item list. -/
theorem reconcile_per_position_witness :
    (processBatchResponse
        [{ id := "1", status := 200, body := some { value := (), error := none } }]
        ([5] : List Nat)).successful.length
      + (processBatchResponse
        [{ id := "1", status := 200, body := some { value := (), error := none } }]
        ([5] : List Nat)).failed.length = 1 :=
  (reconcile_per_position
    [{ id := "1", status := 200, body := some { value := (), error := none } }]
    ([5] : List Nat) (by decide)).1

/-- C6 (amended): the reconciler does not detect a length mismatch and
does not fail loudly.  It iterates the response list: it always yields
exactly one outcome per response (so surplus items are silently dropped
— truncation), and a response position past the end of the item list is
reconciled against an absent item, yielding an outcome whose `request`
is `undefined` (padding with outcomes not backed by a real item). -/
theorem reconcile_length_mismatch {T R : Type} (responses : List (BatchResponse R))
    (items : List T) :
    ((processBatchResponse responses items).successful.length
        + (processBatchResponse responses items).failed.length = responses.length) ∧
    (∀ (j : Nat) (r : BatchResponse R), responses.get? j = some r → items.length ≤ j →
        (reconcileOutcomes items responses 0).get? j = some (reconcileOne none r)) ∧
    (∀ r : BatchResponse R, requestOf (reconcileOne (none : Option T) r) = none) := by
  refine ⟨aux_pbr_count responses items, fun j r hget hj => ?_,
    fun r => aux_requestOf_reconcileOne none r⟩
  have hthis := aux_reconcile_get? items responses 0 j r hget
  have hnone : items.get? (0 + j) = none := List.get?_eq_none.mpr (by omega)
  rw [hnone] at hthis
  simpa using hthis

/-- C6 counterexample: with zero responses against one item the
reconciler returns the empty result normally — one item, no outcome, no
error signalled (silent truncation); with two responses against one item
it emits a second outcome whose `request` is backed by no item (silent
padding). -/
theorem reconcile_length_mismatch_counterexample :
    (processBatchResponse ([] : List (BatchResponse Unit)) ([3] : List Nat)
        = { successful := [], failed := [] }) ∧
    ((processBatchResponse
        [{ id := "a", status := 200, body := some { value := (), error := none } },
         { id := "b", status := 200, body := some { value := (), error := none } }]
        ([5] : List Nat)).successful.map SuccessEntry.request = [some 5, none]) := by
  exact ⟨rfl, rfl⟩

/-- Witness for `reconcile_length_mismatch` with one response and no
items. -/
theorem reconcile_length_mismatch_witness :
    (reconcileOutcomes ([] : List Nat)
        [({ id := "a", status := 200, body := some { value := (), error := none } }
          : BatchResponse Unit)] 0).get? 0
      = some (reconcileOne none
          { id := "a", status := 200, body := some { value := (), error := none } }) :=
  (reconcile_length_mismatch
    [({ id := "a", status := 200, body := some { value := (), error := none } }
      : BatchResponse Unit)] ([] : List Nat)).2.1 0 _ rfl (by decide)

/-!
Request-building lemmas.
-/

theorem aux_mkbr_length {T P : Type} (uuidGen : Nat → String) (builder : T → RequestFields P) :
    ∀ (items : List T) (ctr : Nat),
      (mkBatchRequests uuidGen builder items ctr).length = items.length := by
  intro items
  induction items with
  | nil => intro ctr; rfl
  | cons it rest ih =>
    intro ctr
    simp only [mkBatchRequests, List.length_cons, ih]

theorem aux_mkbr_stripId {T P : Type} (uuidGen : Nat → String) (builder : T → RequestFields P) :
    ∀ (items : List T) (ctr : Nat),
      (mkBatchRequests uuidGen builder items ctr).map stripId = items.map builder := by
  intro items
  induction items with
  | nil => intro ctr; rfl
  | cons it rest ih =>
    intro ctr
    simp only [mkBatchRequests, List.map_cons, ih]
    rfl

theorem aux_mkbr_ids {T P : Type} (uuidGen : Nat → String) (builder : T → RequestFields P) :
    ∀ (items : List T) (ctr : Nat),
      (mkBatchRequests uuidGen builder items ctr).map BatchRequest.id
        = (List.range items.length).map fun i => uuidGen (ctr + i) := by
  intro items
  induction items with
  | nil => intro ctr; rfl
  | cons it rest ih =>
    intro ctr
    simp only [mkBatchRequests, List.map_cons, List.length_cons, ih]
    rw [List.range_succ_eq_map, List.map_cons, List.map_map]
    have hf : (fun i => uuidGen (ctr + 1 + i)) = (fun i => uuidGen (ctr + i)) ∘ Nat.succ :=
      funext fun i => congrArg uuidGen (by omega)
    rw [hf]
    simp

/-!
Retry-controller lemmas.
-/

theorem aux_run_429 {T P R : Type} (cfg : Options)
    (exec : Nat → List (BatchRequest P) → ExecOutcome R) (uuidGen : Nat → String)
    (builder : T → RequestFields P)
    (hexec : ∀ n rs, ∃ g, exec n rs = ExecOutcome.err g ∧ g.statusCode = some 429) :
    ∀ (k : Nat) (attempt : Int), (cfg.maxRetries - attempt).toNat = k →
      1 ≤ attempt → attempt ≤ cfg.maxRetries →
      ∀ (u c : Nat) (items : List T),
        (processSingleBatchWithRetry cfg exec uuidGen builder items attempt u c).sent.length
            = (cfg.maxRetries - attempt + 1).toNat ∧
        (processSingleBatchWithRetry cfg exec uuidGen builder items attempt u c).result.successful
            = [] ∧
        (processSingleBatchWithRetry cfg exec uuidGen builder items attempt u c).result.failed.map
            FailureEntry.request = items.map some := by
  intro k
  induction k using Nat.strong_induction_on with
  | _ k ih =>
    intro attempt hk h1 h2 u c items
    obtain ⟨g, hg, hg429⟩ := hexec c (mkBatchRequests uuidGen builder items u)
    rw [processSingleBatchWithRetry]
    simp only [hg]
    by_cases hlt : attempt < cfg.maxRetries
    · rw [dif_pos ⟨hg429, hlt⟩]
      have hrec := ih (cfg.maxRetries - (attempt + 1)).toNat (by omega) (attempt + 1) rfl
        (by omega) (by omega) (u + items.length) (c + 1) items
      refine ⟨?_, hrec.2.1, hrec.2.2⟩
      simp only [List.length_cons, hrec.1]
      omega
    · rw [dif_neg (fun hcon => hlt hcon.2)]
      refine ⟨?_, rfl, ?_⟩
      · simp only [List.length_singleton]
        omega
      · simp [List.map_map, Function.comp]

/-- C3: against an executor that throws a 429 rate-limit error on every
invocation and a positive attempt ceiling, the retry controller submits
the group exactly `maxRetries` times — never a `(maxRetries+1)`-th time
— and every item of the group comes back as a Failure (in particular
`maxRetries = 1` means a single submission and no retry, since the
attempt counter starts at 1 and the guard is `attempt < maxRetries`). -/
theorem retry_attempt_ceiling {T P R : Type} (cfg : Options)
    (exec : Nat → List (BatchRequest P) → ExecOutcome R) (uuidGen : Nat → String)
    (builder : T → RequestFields P) (items : List T) (u c : Nat)
    (hexec : ∀ n rs, ∃ g, exec n rs = ExecOutcome.err g ∧ g.statusCode = some 429)
    (hpos : 1 ≤ cfg.maxRetries) :
    (processSingleBatchWithRetry cfg exec uuidGen builder items 1 u c).sent.length
        = cfg.maxRetries.toNat ∧
    (processSingleBatchWithRetry cfg exec uuidGen builder items 1 u c).result.successful = [] ∧
    (processSingleBatchWithRetry cfg exec uuidGen builder items 1 u c).result.failed.map
        FailureEntry.request = items.map some := by
  have h := aux_run_429 cfg exec uuidGen builder hexec (cfg.maxRetries - 1).toNat 1 rfl
    le_rfl hpos u c items
  have heq : (cfg.maxRetries - 1 + 1).toNat = cfg.maxRetries.toNat := by omega
  rw [heq] at h
  exact h

/-- Witness for `retry_attempt_ceiling`: ceiling 1, an always-429 stub,
one item — exactly one submission, the item failed. -/
theorem retry_attempt_ceiling_witness :
    (processSingleBatchWithRetry fixtureCfg1 fixtureExec429 fixtureUuid fixtureBuilder
        ([0] : List Nat) 1 0 0).sent.length = 1 ∧
    (processSingleBatchWithRetry fixtureCfg1 fixtureExec429 fixtureUuid fixtureBuilder
        ([0] : List Nat) 1 0 0).result.successful = [] ∧
    (processSingleBatchWithRetry fixtureCfg1 fixtureExec429 fixtureUuid fixtureBuilder
        ([0] : List Nat) 1 0 0).result.failed.map FailureEntry.request = [some 0] :=
  retry_attempt_ceiling fixtureCfg1 fixtureExec429 fixtureUuid fixtureBuilder [0] 0 0
    (fun _ _ => ⟨_, rfl, rfl⟩) (by decide)

theorem aux_sent_requests {T P R : Type} (cfg : Options)
    (exec : Nat → List (BatchRequest P) → ExecOutcome R) (uuidGen : Nat → String)
    (builder : T → RequestFields P) :
    ∀ (k : Nat) (attempt : Int), (cfg.maxRetries - attempt).toNat = k →
      ∀ (u c : Nat) (items : List T),
        (∀ l ∈ (processSingleBatchWithRetry cfg exec uuidGen builder items attempt u c).sent,
            l.map stripId = items.map builder) ∧
        (∀ (j : Nat) (l : List (BatchRequest P)),
            (processSingleBatchWithRetry cfg exec uuidGen builder items attempt u c).sent.get? j
              = some l →
            l.map BatchRequest.id
              = (List.range items.length).map fun i => uuidGen (u + j * items.length + i)) := by
  intro k
  induction k using Nat.strong_induction_on with
  | _ k ih =>
    intro attempt hk u c items
    rw [processSingleBatchWithRetry]
    split
    next responses hx =>
      refine ⟨fun l hl => ?_, fun j l hget => ?_⟩
      · simp only [List.mem_singleton] at hl
        subst hl
        exact aux_mkbr_stripId uuidGen builder items u
      · cases j with
        | zero =>
          simp only [List.get?] at hget
          injection hget with hinj
          subst hinj
          rw [aux_mkbr_ids]
          simp
        | succ j =>
          simp only [List.get?, List.get?_nil] at hget
          cases hget
    next g hx =>
      by_cases hcond : g.statusCode = some 429 ∧ attempt < cfg.maxRetries
      · rw [dif_pos hcond]
        have hrec := ih (cfg.maxRetries - (attempt + 1)).toNat (by omega) (attempt + 1) rfl
          (u + items.length) (c + 1) items
        refine ⟨fun l hl => ?_, fun j l hget => ?_⟩
        · simp only [List.mem_cons] at hl
          rcases hl with hl | hl
          · subst hl
            exact aux_mkbr_stripId uuidGen builder items u
          · exact hrec.1 l hl
        · cases j with
          | zero =>
            simp only [List.get?] at hget
            injection hget with hinj
            subst hinj
            rw [aux_mkbr_ids]
            simp
          | succ j =>
            simp only [List.get?] at hget
            have hids := hrec.2 j l hget
            rw [hids]
            have hf : (fun i => uuidGen (u + items.length + j * items.length + i))
                = fun i => uuidGen (u + (j + 1) * items.length + i) :=
              funext fun i => congrArg uuidGen (by ring)
            rw [hf]
      · rw [dif_neg hcond]
        refine ⟨fun l hl => ?_, fun j l hget => ?_⟩
        · simp only [List.mem_singleton] at hl
          subst hl
          exact aux_mkbr_stripId uuidGen builder items u
        · cases j with
          | zero =>
            simp only [List.get?] at hget
            injection hget with hinj
            subst hinj
            rw [aux_mkbr_ids]
            simp
          | succ j =>
            simp only [List.get?, List.get?_nil] at hget
            cases hget

/-- C7 (amended): the request list is rebuilt from the same items by the
same builder at the top of every attempt, so every submission of a group
strips (ids removed) to the same descriptor-field list; but the
correlation ids are NOT reused — the `j`-th submission of an `n`-item
group carries the uuids drawn at positions `u + j*n .. u + j*n + n - 1`
of the uuid oracle, fresh ones for every attempt, so a retry does not
resubmit the identical descriptor list and a `RequestDescriptor` is
created once per item per attempt, not once per item. -/
theorem retry_resubmission_descriptors {T P R : Type} (cfg : Options)
    (exec : Nat → List (BatchRequest P) → ExecOutcome R) (uuidGen : Nat → String)
    (builder : T → RequestFields P) (items : List T) (attempt : Int) (u c : Nat) :
    (∀ l ∈ (processSingleBatchWithRetry cfg exec uuidGen builder items attempt u c).sent,
        l.map stripId = items.map builder) ∧
    (∀ (j : Nat) (l : List (BatchRequest P)),
        (processSingleBatchWithRetry cfg exec uuidGen builder items attempt u c).sent.get? j
          = some l →
        l.map BatchRequest.id
          = (List.range items.length).map fun i => uuidGen (u + j * items.length + i)) :=
  aux_sent_requests cfg exec uuidGen builder (cfg.maxRetries - attempt).toNat attempt rfl u c items

/-- C7 counterexample: ceiling 2, an always-429 executor, one item and
the injective uuid oracle `fixtureUuid`: the group is submitted twice,
the first attempt with correlation id `"0"`, the retry with the fresh
correlation id `"1"` — the retried request list does not equal the
original one descriptor for descriptor. -/
theorem retry_resubmission_descriptors_counterexample :
    (processSingleBatchWithRetry fixtureCfg2 fixtureExec429 fixtureUuid fixtureBuilder
        ([0] : List Nat) 1 0 0).sent.map (fun l => l.map BatchRequest.id) = [["0"], ["1"]]
      ∧ (["0"] : List String) ≠ ["1"] := by
  constructor
  · simp [processSingleBatchWithRetry, fixtureExec429, fixtureCfg2, fixtureUuid, mkBatchRequests]
    decide
  · decide

/-- Witness for `retry_resubmission_descriptors`: the first submitted
request list of a concrete run strips to the builder image of the
items. -/
theorem retry_resubmission_descriptors_witness :
    ([({ id := "0", method := Method.GET, url := "/users/0", body := none, headers := none }
        : BatchRequest Unit)]).map stripId = ([0] : List Nat).map fixtureBuilder :=
  (retry_resubmission_descriptors fixtureCfg2 fixtureExec429 fixtureUuid fixtureBuilder
    [0] 1 0 0).1
    [{ id := "0", method := Method.GET, url := "/users/0", body := none, headers := none }]
    (by
      simp [processSingleBatchWithRetry, fixtureExec429, fixtureCfg2, fixtureUuid,
        mkBatchRequests, fixtureBuilder]
      decide)

/-- C8: on a thrown error that is not status 429, or on a 429 once the
attempt ceiling is reached (`attempt < maxRetries` false), the group is
not resubmitted: the executor was invoked for this group exactly once at
this level, no backoff sleep happens, every item of the group becomes a
Failure whose description embeds the underlying error, and the failure
is returned as data — the top-level operation still returns a
`BatchResult` (no exception reaches its caller) whenever the batch size
is positive. -/
theorem terminal_failure_no_retry {T P R : Type} (cfg : Options)
    (exec : Nat → List (BatchRequest P) → ExecOutcome R) (uuidGen : Nat → String)
    (builder : T → RequestFields P) (items : List T) (attempt : Int) (u c : Nat)
    (g : GraphError)
    (herr : exec c (mkBatchRequests uuidGen builder items u) = ExecOutcome.err g)
    (hterm : g.statusCode ≠ some 429 ∨ ¬ attempt < cfg.maxRetries) :
    (processSingleBatchWithRetry cfg exec uuidGen builder items attempt u c).result
        = { successful := []
            failed := items.map fun it =>
              { request := some it, error := "Batch request failed: " ++ g.str } } ∧
    (processSingleBatchWithRetry cfg exec uuidGen builder items attempt u c).sent.length = 1 ∧
    (processSingleBatchWithRetry cfg exec uuidGen builder items attempt u c).sleepsMs = [] ∧
    (∀ requests : List T, 0 < cfg.batchSize →
        (processBatch cfg exec uuidGen builder requests).isSome) := by
  have hcond : ¬ (g.statusCode = some 429 ∧ attempt < cfg.maxRetries) := by tauto
  rw [processSingleBatchWithRetry]
  simp only [herr]
  rw [dif_neg hcond]
  refine ⟨rfl, rfl, rfl, fun requests hbs => ?_⟩
  unfold processBatch
  rw [aux_chunkArray_pos requests cfg.batchSize hbs]
  rfl

/-- Witness for `terminal_failure_no_retry`: a 500 error on a one-item
group with a fresh attempt counter. -/
theorem terminal_failure_no_retry_witness :
    (processSingleBatchWithRetry fixtureCfg2 fixtureExec500 fixtureUuid fixtureBuilder
        ([0] : List Nat) 1 0 0).result
      = { successful := []
          failed := [{ request := some 0, error := "Batch request failed: GraphError: 500" }] } ∧
    (processSingleBatchWithRetry fixtureCfg2 fixtureExec500 fixtureUuid fixtureBuilder
        ([0] : List Nat) 1 0 0).sent.length = 1 :=
  have h := terminal_failure_no_retry fixtureCfg2 fixtureExec500 fixtureUuid fixtureBuilder
    ([0] : List Nat) 1 0 0 { statusCode := some 500, retryAfter := none, str := "GraphError: 500" }
    rfl (Or.inl (by decide))
  ⟨h.1, h.2.1⟩

/-- C4 (amended): the backoff for a retried 429 is
`Number(Number(hint) || retryDelay)` seconds, slept as `retryAfter * 1000`
milliseconds: a hint parsing to a nonzero number wins regardless of the
configured `retryDelay` (hint `"5"` gives 5 seconds); a missing hint, a
non-numeric hint — which never crashes the controller — or a hint
parsing to `0` (a consequence of `||` falsiness the claim misses) falls
back to `retryDelay` interpreted in seconds; the suspension handed to
the runtime is clamped at zero, so a negative computed delay suspends
for zero time. -/
theorem retry_backoff_computation :
    (∀ d : Int, computeRetryAfter (some "5") d = 5) ∧
    (∀ d : Int, computeRetryAfter none d = d) ∧
    (∀ (s : String) (d : Int), jsNumberOfString s = none → computeRetryAfter (some s) d = d) ∧
    (∀ (s : String) (d : Int), jsNumberOfString s = some 0 → computeRetryAfter (some s) d = d) ∧
    (∀ (s : String) (d v : Int), jsNumberOfString s = some v → v ≠ 0 →
        computeRetryAfter (some s) d = v) ∧
    (∀ r : Int, 0 ≤ effectiveSleepMs r ∧ (r ≤ 0 → effectiveSleepMs r = 0) ∧
        (0 ≤ r → effectiveSleepMs r = r * 1000)) ∧
    (∀ (T P R : Type) (cfg : Options) (exec : Nat → List (BatchRequest P) → ExecOutcome R)
        (uuidGen : Nat → String) (builder : T → RequestFields P) (items : List T)
        (attempt : Int) (u c : Nat) (g : GraphError),
        exec c (mkBatchRequests uuidGen builder items u) = ExecOutcome.err g →
        g.statusCode = some 429 → attempt < cfg.maxRetries →
        (processSingleBatchWithRetry cfg exec uuidGen builder items attempt u c).sleepsMs.head?
          = some (effectiveSleepMs (computeRetryAfter g.retryAfter cfg.retryDelay))) := by
  have h5 : jsNumberOfString "5" = some 5 := by decide
  refine ⟨fun d => ?_, fun d => rfl, fun s d hs => ?_, fun s d hs => ?_,
    fun s d v hs hv => ?_, fun r => ⟨le_max_left 0 _, fun hr => ?_, fun hr => ?_⟩,
    fun T P R cfg exec uuidGen builder items attempt u c g herr h429 hlt => ?_⟩
  · simp [computeRetryAfter, h5]
  · simp [computeRetryAfter, hs]
  · simp [computeRetryAfter, hs]
  · simp [computeRetryAfter, hs, hv]
  · unfold effectiveSleepMs
    have : r * 1000 ≤ 0 := by omega
    omega
  · unfold effectiveSleepMs
    have : 0 ≤ r * 1000 := by omega
    omega
  · rw [processSingleBatchWithRetry]
    simp only [herr]
    rw [dif_pos ⟨h429, hlt⟩]
    rfl

/-- C4 counterexample: the claim says a present hint is honoured in
seconds and a zero computed delay suspends for zero; but a hint of
`"0"` is falsy under `||`, so the code falls back to the configured
`retryDelay` (here 7 seconds, not 0). -/
theorem retry_backoff_computation_counterexample :
    computeRetryAfter (some "0") 7 = 7 ∧ jsNumberOfString "0" = some 0 ∧ (7 : Int) ≠ 0 := by
  decide

/-- Witness for `retry_backoff_computation`: a non-numeric hint falls
back to the configured delay without crashing. -/
theorem retry_backoff_computation_witness :
    computeRetryAfter (some "abc") 9 = 9 :=
  retry_backoff_computation.2.2.1 "abc" 9 (by decide)

/-!
Whole-batch lemmas.
-/

theorem aux_perm_four {α : Type} (A1 A2 B1 B2 : List α) :
    ((A1 ++ A2) ++ (B1 ++ B2)).Perm ((A1 ++ B1) ++ (A2 ++ B2)) := by
  have hmid : (A2 ++ (B1 ++ B2)).Perm (B1 ++ (A2 ++ B2)) := by
    have h1 : A2 ++ (B1 ++ B2) = (A2 ++ B1) ++ B2 := (List.append_assoc A2 B1 B2).symm
    have h2 : (B1 ++ A2) ++ B2 = B1 ++ (A2 ++ B2) := List.append_assoc B1 A2 B2
    rw [h1, ← h2]
    exact (List.perm_append_comm).append_right B2
  have h3 : (A1 ++ A2) ++ (B1 ++ B2) = A1 ++ (A2 ++ (B1 ++ B2)) := List.append_assoc A1 A2 _
  have h4 : (A1 ++ B1) ++ (A2 ++ B2) = A1 ++ (B1 ++ (A2 ++ B2)) := List.append_assoc A1 B1 _
  rw [h3, h4]
  exact hmid.append_left A1

theorem aux_single_perm {T P R : Type} (cfg : Options)
    (exec : Nat → List (BatchRequest P) → ExecOutcome R) (uuidGen : Nat → String)
    (builder : T → RequestFields P)
    (hexec : ∀ n rs resps, exec n rs = ExecOutcome.ok resps → resps.length = rs.length) :
    ∀ (k : Nat) (attempt : Int), (cfg.maxRetries - attempt).toNat = k →
      ∀ (u c : Nat) (items : List T),
        ((processSingleBatchWithRetry cfg exec uuidGen builder items attempt u c).result.successful.map
              SuccessEntry.request
            ++ (processSingleBatchWithRetry cfg exec uuidGen builder items attempt u c).result.failed.map
              FailureEntry.request).Perm (items.map some) := by
  intro k
  induction k using Nat.strong_induction_on with
  | _ k ih =>
    intro attempt hk u c items
    rw [processSingleBatchWithRetry]
    split
    next responses hx =>
      have hlen : responses.length = items.length := by
        rw [hexec c (mkBatchRequests uuidGen builder items u) responses hx]
        exact aux_mkbr_length uuidGen builder items u
      exact aux_pbr_perm responses items hlen
    next g hx =>
      by_cases hcond : g.statusCode = some 429 ∧ attempt < cfg.maxRetries
      · rw [dif_pos hcond]
        exact ih (cfg.maxRetries - (attempt + 1)).toNat (by omega) (attempt + 1) rfl
          (u + items.length) (c + 1) items
      · rw [dif_neg hcond]
        simp only [List.map_nil, List.nil_append, List.map_map]
        have hcomp : (FailureEntry.request ∘ fun it =>
            ({ request := some it, error := "Batch request failed: " ++ g.str } : FailureEntry T))
              = some := rfl
        rw [hcomp]

theorem aux_chunks_perm {T P R : Type} (cfg : Options)
    (exec : Nat → List (BatchRequest P) → ExecOutcome R) (uuidGen : Nat → String)
    (builder : T → RequestFields P)
    (hexec : ∀ n rs resps, exec n rs = ExecOutcome.ok resps → resps.length = rs.length) :
    ∀ (bs : List (List T)) (u c : Nat),
      ((processBatchChunks cfg exec uuidGen builder bs u c).successful.map SuccessEntry.request
          ++ (processBatchChunks cfg exec uuidGen builder bs u c).failed.map
            FailureEntry.request).Perm (bs.flatten.map some) := by
  intro bs
  induction bs with
  | nil => intro u c; rfl
  | cons b rest ih =>
    intro u c
    simp only [processBatchChunks, List.flatten_cons, List.map_append]
    refine (aux_perm_four _ _ _ _).trans ?_
    exact (aux_single_perm cfg exec uuidGen builder hexec _ 1 rfl u c b).append (ih _ _)

/-- C1: for every item sequence and configuration with positive batch
size, if the executor answers every submitted group it accepts with
exactly one sub-response per request, then `processBatch` returns a
`BatchResult` with `successful.length + failed.length = items.length`,
and the multiset of item references across the two lists is exactly the
multiset of input items — no item dropped, none duplicated. -/
theorem batch_no_item_lost {T P R : Type} (cfg : Options)
    (exec : Nat → List (BatchRequest P) → ExecOutcome R) (uuidGen : Nat → String)
    (builder : T → RequestFields P) (requests : List T)
    (hsize : 0 < cfg.batchSize)
    (hexec : ∀ n rs resps, exec n rs = ExecOutcome.ok resps → resps.length = rs.length) :
    ∃ r, processBatch cfg exec uuidGen builder requests = some r ∧
      r.successful.length + r.failed.length = requests.length ∧
      (r.successful.map SuccessEntry.request ++ r.failed.map FailureEntry.request).Perm
        (requests.map some) := by
  refine ⟨processBatchChunks cfg exec uuidGen builder
    (chunkArrayPos requests cfg.batchSize.toNat (by omega)) 0 0, ?_, ?_, ?_⟩
  · unfold processBatch
    rw [aux_chunkArray_pos requests cfg.batchSize hsize]
    rfl
  · have hperm := aux_chunks_perm cfg exec uuidGen builder hexec
      (chunkArrayPos requests cfg.batchSize.toNat (by omega)) 0 0
    rw [aux_chunkPos_flatten cfg.batchSize.toNat (by omega) requests.length requests le_rfl]
      at hperm
    have hlen := hperm.length_eq
    simp only [List.length_append, List.length_map] at hlen
    exact hlen
  · have hperm := aux_chunks_perm cfg exec uuidGen builder hexec
      (chunkArrayPos requests cfg.batchSize.toNat (by omega)) 0 0
    rw [aux_chunkPos_flatten cfg.batchSize.toNat (by omega) requests.length requests le_rfl]
      at hperm
    exact hperm

/-- Witness for `batch_no_item_lost`: three items in batches of two
against an all-200 executor. -/
theorem batch_no_item_lost_witness :
    (processBatch fixtureCfgSize2 fixtureExecOk fixtureUuid fixtureBuilder
        ([0, 1, 2] : List Nat)).isSome := by
  have hex : ∀ (n : Nat) (rs : List (BatchRequest Unit)) (resps : List (BatchResponse Unit)),
      fixtureExecOk n rs = ExecOutcome.ok resps → resps.length = rs.length := by
    intro n rs resps h
    injection h with h
    rw [← h, List.length_map]
  obtain ⟨r, hr, -, -⟩ := batch_no_item_lost fixtureCfgSize2 fixtureExecOk fixtureUuid
    fixtureBuilder [0, 1, 2] (by decide) hex
  rw [hr]
  rfl

theorem aux_chunks_eq_traces {T P R : Type} (cfg : Options)
    (exec : Nat → List (BatchRequest P) → ExecOutcome R) (uuidGen : Nat → String)
    (builder : T → RequestFields P) :
    ∀ (bs : List (List T)) (u c : Nat),
      processBatchChunks cfg exec uuidGen builder bs u c
        = { successful := ((groupTraces cfg exec uuidGen builder bs u c).map
              fun tr => tr.result.successful).flatten
            failed := ((groupTraces cfg exec uuidGen builder bs u c).map
              fun tr => tr.result.failed).flatten } := by
  intro bs
  induction bs with
  | nil => intro u c; rfl
  | cons b rest ih =>
    intro u c
    simp only [processBatchChunks, groupTraces, List.map_cons, List.flatten_cons]
    rw [ih]

/-- C10 (implicit): the loop body of `processBatch` is
`await queue.add(task)`, and `queue.add` resolves only when its task has
completed, so each group — its retries included — reaches a terminal
state before the next group is even submitted, regardless of the
configured concurrency.  Consequently the final `successful` list is the
concatenation of the per-group `successful` lists in original chunk
order, and likewise for `failed`. -/
theorem batch_sequential_concat {T P R : Type} (cfg : Options)
    (exec : Nat → List (BatchRequest P) → ExecOutcome R) (uuidGen : Nat → String)
    (builder : T → RequestFields P) (requests : List T) (hsize : 0 < cfg.batchSize) :
    ∃ chunks, chunkArray requests cfg.batchSize = some chunks ∧
      processBatch cfg exec uuidGen builder requests
        = some { successful := ((groupTraces cfg exec uuidGen builder chunks 0 0).map
                   fun tr => tr.result.successful).flatten
                 failed := ((groupTraces cfg exec uuidGen builder chunks 0 0).map
                   fun tr => tr.result.failed).flatten } := by
  refine ⟨chunkArrayPos requests cfg.batchSize.toNat (by omega),
    aux_chunkArray_pos requests cfg.batchSize hsize, ?_⟩
  unfold processBatch
  rw [aux_chunkArray_pos requests cfg.batchSize hsize]
  rw [Option.map_some']
  rw [aux_chunks_eq_traces]

/-- Witness for `batch_sequential_concat` on a concrete three-item
run. -/
theorem batch_sequential_concat_witness :
    (processBatch fixtureCfgSize2 fixtureExecOk fixtureUuid fixtureBuilder
        ([0, 1, 2] : List Nat)).isSome ∧
    (chunkArray ([0, 1, 2] : List Nat) fixtureCfgSize2.batchSize).isSome := by
  obtain ⟨chunks, hc, hp⟩ := batch_sequential_concat fixtureCfgSize2 fixtureExecOk fixtureUuid
    fixtureBuilder [0, 1, 2] (by decide)
  constructor
  · rw [hp]
    rfl
  · rw [hc]
    rfl

/-- C2: the claim describes the documented intent (construction without
options succeeds with batchSize 20, concurrency 2, maxRetries 3,
retryDelay 1000 ms, interval 1000 ms, each field independently
overridable), but the code cannot deliver it: the default parameter
object reads `options.retryDelay` inside its own initializer, so calling
the constructor with no options argument throws instead of
constructing; only a call with an explicit (full) options object
returns, and it stores exactly the given fields. -/
theorem constructor_without_options_throws :
    constructProcessorOptions none
      = Except.error "ReferenceError: options is accessed before its initialization" ∧
    ∀ o : Options, constructProcessorOptions (some o) = Except.ok o :=
  ⟨rfl, fun _ => rfl⟩

end MsGraphBatch
